import Mathlib

/-!
Shallow embedding of the fileshare backend (the chunked-upload revision of the
server, the one with duplicate suppression, compression and file groups; the
earlier near-duplicate revisions in the repository lack those features and the
claims' wording — received set, duplicate acknowledgement, group codes —
matches this revision).

Modelling conventions:
* Byte payloads are lists of byte values (`List Nat`).
* The JS number produced by `parseInt` is modelled as `Option Int`, with `none`
  standing for `NaN`.
* The in-memory `chunkedUploads` table, the per-upload chunk directories, the
  `db.json` arrays and the uploads directory form one explicit `ServerState`.
* Express/multer transport, logging, timestamps for internal ids and the
  informational compression-ratio string are not modelled; `crypto.randomBytes(3)`
  is modelled by passing the three drawn byte values as arguments, and the zlib
  gzip stream is modelled by passing the compressing function as an argument
  (the server only ever pipes bytes through it and measures the output size).
-/

namespace FileShare

/-- Byte payloads: each entry is one byte value. -/
abbrev Bytes := List Nat

/-- Pointwise update of a string-keyed table (one JS object/directory slot). -/
def upd {α : Type} (f : String → α) (k : String) (v : α) : String → α :=
  fun q => if q = k then v else f q

/-- Decimal digit test on a character. -/
def isDigitChar (c : Char) : Bool := decide ('0' ≤ c) && decide (c ≤ '9')

/-- Accumulate the value of the maximal run of leading decimal digits,
stopping (and discarding the rest) at the first non-digit, as
JavaScript parseInt does. -/
def digitsAux (acc : Nat) : List Char → Nat
  | [] => acc
  | c :: cs => if isDigitChar c then digitsAux (10 * acc + (c.toNat - 48)) cs else acc

/-- Value of the maximal leading digit run; `none` when the first character is
not a digit (parseInt yields NaN there). -/
def digitsVal : List Char → Option Nat
  | [] => none
  | c :: cs => if isDigitChar c then some (digitsAux (c.toNat - 48) cs) else none

/-- Model of JavaScript parseInt on a string with no radix argument, for the
decimal inputs this server receives: an optional sign followed by the maximal
run of leading digits; `none` models NaN.  (Leading whitespace and the 0x
autodetection of parseInt are not exercised by this server's inputs.) -/
def parseIntJs (s : String) : Option Int :=
  match s.data with
  | [] => none
  | c :: cs =>
      if c = '-' then (digitsVal cs).map (fun n => -(n : Int))
      else if c = '+' then (digitsVal cs).map (fun n => (n : Int))
      else (digitsVal (c :: cs)).map (fun n => (n : Int))

/-- The character of a decimal digit. -/
def digitChar (d : Nat) : Char := Char.ofNat (48 + d)

/-- Fueled big-endian decimal printer (fuel keeps the recursion structural,
so that terms reduce definitionally; any fuel at least the printed number is
enough). -/
def natToDecAux : Nat → Nat → List Char → List Char
  | 0, _, acc => acc
  | fuel + 1, n, acc =>
      if n = 0 then acc else natToDecAux fuel (n / 10) (digitChar (n % 10) :: acc)

/-- Model of JavaScript Number.prototype.toString for the nonnegative integers
the server prints (loop counters and lengths). -/
def natToDec (n : Nat) : String :=
  if n = 0 then "0" else ⟨natToDecAux n n []⟩

/-- One lowercase hexadecimal digit. -/
def toHexDigit (d : Nat) : Char :=
  if d < 10 then Char.ofNat (48 + d) else Char.ofNat (87 + d)

/-- Two lowercase hex characters of one byte. -/
def byteToHex (b : Nat) : List Char := [toHexDigit (b / 16 % 16), toHexDigit (b % 16)]

/-- crypto.randomBytes(3).toString(16): the share code derived from the three
random byte values that the kernel handed out. -/
def hexCode (b₁ b₂ b₃ : Fin 256) : String :=
  ⟨byteToHex b₁.val ++ byteToHex b₂.val ++ byteToHex b₃.val⟩

/-- Suffix of a name starting at its last dot, empty for dotless names and for
names whose only dot is the leading one (path.extname on a bare filename). -/
def extnameAux : List Char → Option (List Char)
  | [] => none
  | c :: cs =>
      match extnameAux cs with
      | some e => some e
      | none => if c = '.' then some (c :: cs) else none

/-- Model of path.extname applied to the declared filename. -/
def extname (s : String) : String :=
  match s.data with
  | [] => ""
  | _ :: cs =>
      match extnameAux cs with
      | some e => ⟨e⟩
      | none => ""

/-- One entry of the in-memory chunkedUploads table. -/
structure UploadSession where
  filename : Option String
  /-- parseInt(totalChunks); `none` is NaN. -/
  totalChunks : Option Int
  receivedChunks : Nat
  /-- The JS Set of already accepted parsed chunk indices. -/
  receivedChunksMap : List (Option Int)
  /-- parseInt(fileSize); `none` is NaN. -/
  fileSize : Option Int
  mimeType : Option String
  uploadChunksDir : String
  createdAt : Nat
  chunkSize : Nat
  deriving Repr, DecidableEq

/-- One record of the db.json files array (the informational ratio string and
the internal id, which no claim touches, are left out). -/
structure FileRecord where
  id : String
  filename : Option String
  storedFilename : String
  mimetype : Option String
  originalMimetype : Option String
  size : Nat
  originalSize : Option Int
  compressed : Bool
  chunked : Bool
  deriving Repr, DecidableEq

/-- One record of the db.json groups array. -/
structure GroupRecord where
  id : String
  name : String
  fileIds : List String
  fileCount : Nat
  deriving Repr, DecidableEq

/-- The server's mutable state: session table, chunk directories (keyed by the
directory name, then by the chunk file name), the two db.json arrays, and the
uploads directory (keyed by stored filename). -/
structure ServerState where
  sessions : String → Option UploadSession
  chunkFiles : String → String → Option Bytes
  files : List FileRecord
  groups : List GroupRecord
  uploadsDir : String → Option Bytes

/-- The state of a freshly started server: empty table, empty directories,
empty database. -/
def emptyState : ServerState where
  sessions := fun _ => none
  chunkFiles := fun _ _ => none
  files := []
  groups := []
  uploadsDir := fun _ => none

/-- The request body of POST /api/upload/init; raw values before parseInt,
`none` for an absent field (parseInt(undefined) is NaN). -/
structure InitParams where
  filename : Option String
  totalChunks : Option String
  fileSize : Option String
  mimeType : Option String
  chunkSize : Option Nat
  deriving Repr, DecidableEq

/-- POST /api/upload/init: makes the chunk directory when absent (never
clearing an existing one) and overwrites the session table slot with a fresh
entry — no field is validated.  Returns the success flag of the response. -/
def initUpload (st : ServerState) (uploadId : String) (p : InitParams) (now : Nat) :
    ServerState × Bool :=
  ({ st with
      sessions := upd st.sessions uploadId (some
        { filename := p.filename
          totalChunks := p.totalChunks.bind parseIntJs
          receivedChunks := 0
          receivedChunksMap := []
          fileSize := p.fileSize.bind parseIntJs
          mimeType := p.mimeType
          uploadChunksDir := uploadId
          createdAt := now
          chunkSize := match p.chunkSize with
            | some n => if n = 0 then 5242880 else n
            | none => 5242880 }) },
   true)

/-- Outcome of POST /api/upload/chunk (the multer temp file being absent is a
transport failure below this model; the accepted case reports the counts the
route answers with). -/
inductive ChunkResult where
  | invalidUploadId
  | emptyChunk
  | accepted (receivedChunks : Nat) (totalChunks : Option Int) (duplicate : Bool)
  deriving Repr, DecidableEq

/-- POST /api/upload/chunk: parse the index, reject unknown sessions,
acknowledge an already-received parsed index as a duplicate without touching
anything, reject an empty payload, and otherwise store the payload in the
session's chunk directory under the RAW index string while recording the
PARSED index in the received set and bumping the count. -/
def acceptChunk (st : ServerState) (uploadId chunkIndex : String) (payload : Bytes) :
    ServerState × ChunkResult :=
  let idxNum := parseIntJs chunkIndex
  match st.sessions uploadId with
  | none => (st, .invalidUploadId)
  | some s =>
    if idxNum ∈ s.receivedChunksMap then
      (st, .accepted s.receivedChunks s.totalChunks true)
    else if payload.isEmpty then
      (st, .emptyChunk)
    else
      let s2 := { s with
        receivedChunks := s.receivedChunks + 1
        receivedChunksMap := idxNum :: s.receivedChunksMap }
      ({ st with
          sessions := upd st.sessions uploadId (some s2)
          chunkFiles := upd st.chunkFiles s.uploadChunksDir
            (upd (st.chunkFiles s.uploadChunksDir) chunkIndex (some payload)) },
       .accepted s2.receivedChunks s.totalChunks false)

/-- Feed a list of (raw index string, payload) chunk submissions through
POST /api/upload/chunk in order, keeping only the state. -/
def submitAll (st : ServerState) (uploadId : String) (subs : List (String × Bytes)) :
    ServerState :=
  subs.foldl (fun acc sub => (acceptChunk acc uploadId sub.1 sub.2).1) st

/-- The loop of combineChunks from index i for the given number of remaining
indices: read the chunk file named by the decimal index, failing with the
first missing index, and concatenate in ascending index order. -/
def combineFrom (read : String → Option Bytes) (i : Nat) : Nat → Except Nat Bytes
  | 0 => .ok []
  | fuel + 1 =>
    match read (natToDec i) with
    | none => .error i
    | some b => (combineFrom read (i + 1) fuel).map (fun rest => b ++ rest)

/-- combineChunks: indices 0,1,...,total-1 in ascending order. -/
def combineChunks (read : String → Option Bytes) (total : Nat) : Except Nat Bytes :=
  combineFrom read 0 total

/-- The completeness test POST /api/upload/complete performs before anything
else: receivedChunks strictly equal to the parsed totalChunks (NaN is equal to
nothing). -/
def sessionComplete (s : UploadSession) : Prop :=
  s.totalChunks = some (s.receivedChunks : Int)

instance (s : UploadSession) : Decidable (sessionComplete s) := by
  unfold sessionComplete; infer_instance

/-- The stored artifact name built by the chunked completion route; the .gz
suffix is chosen from the REQUESTED compression flag (the line computing it
runs before the small-file downgrade). -/
def chunkedStoredName (now : Nat) (code fname : String) (compressReq : Bool) : String :=
  "chunked-" ++ natToDec now ++ "-" ++ code ++ extname fname ++
    (if compressReq then ".gz" else "")

/-- The JS test uploadInfo.fileSize < 10 * 1024 (false on NaN). -/
def declaredSmall (fileSize : Option Int) : Bool :=
  match fileSize with
  | some v => decide (v < 10240)
  | none => false

/-- Failures of POST /api/upload/complete.  serverFailure is the catch-all 500
(it fires for a session whose filename is absent, where path.extname throws
before the chunk loop runs). -/
inductive CompleteError where
  | invalidUploadId
  | incomplete (received : Nat) (expected : Option Int)
  | missingChunk (i : Nat)
  | serverFailure
  deriving Repr, DecidableEq

/-- The response body of a successful completion. -/
structure CompleteOk where
  code : String
  filename : Option String
  size : Nat
  originalSize : Option Int
  compressed : Bool
  deriving Repr, DecidableEq

/-- db.files.push(record); saveDb(db): an unconditional append, with no look
at the codes already present. -/
def commitFile (files : List FileRecord) (r : FileRecord) : List FileRecord :=
  files ++ [r]

/-- POST /api/upload/complete: check the session and the count, downgrade the
compression request when the DECLARED size is under 10 KiB, concatenate the
chunk files named 0..totalChunks-1 (failing on the first missing one), pipe
the result through the compressor when still compressing, store the artifact,
measure the stored artifact for the reported size, append the file record,
remove the chunk directory and the session.  randomBytes and gzip enter as
the arguments b₁ b₂ b₃ and compressFn.  (On the error paths the incomplete
output file the real code leaves behind is not modelled; session and chunk
state are returned untouched, as in the code.) -/
def completeUpload (st : ServerState) (uploadId : String) (compressReq : Bool)
    (compressFn : Bytes → Bytes) (b₁ b₂ b₃ : Fin 256) (now : Nat) :
    ServerState × Except CompleteError CompleteOk :=
  match st.sessions uploadId with
  | none => (st, .error .invalidUploadId)
  | some s =>
    if sessionComplete s then
      match s.filename with
      | none => (st, .error .serverFailure)
      | some fname =>
        let code := hexCode b₁ b₂ b₃
        let storedFilename := chunkedStoredName now code fname compressReq
        let compress := compressReq && !(declaredSmall s.fileSize)
        match combineChunks (st.chunkFiles s.uploadChunksDir)
            ((s.totalChunks.getD 0).toNat) with
        | .error i => (st, .error (.missingChunk i))
        | .ok data =>
          let out := if compress then compressFn data else data
          let finalSize := out.length
          let fileRec : FileRecord :=
            { id := code
              filename := some fname
              storedFilename := storedFilename
              mimetype := if compress then some "application/gzip" else s.mimeType
              originalMimetype := if compress then s.mimeType else none
              size := finalSize
              originalSize := if compress then s.fileSize else none
              compressed := compress
              chunked := true }
          ({ st with
              files := commitFile st.files fileRec
              uploadsDir := upd st.uploadsDir storedFilename (some out)
              chunkFiles := upd st.chunkFiles s.uploadChunksDir (fun _ => none)
              sessions := upd st.sessions uploadId none },
           .ok { code := code
                 filename := some fname
                 size := finalSize
                 originalSize := if compress then s.fileSize else none
                 compressed := compress })
    else
      (st, .error (.incomplete s.receivedChunks s.totalChunks))

/-- The response body of POST /api/upload (single-shot). -/
structure UploadOk where
  code : String
  filename : String
  size : Nat
  originalSize : Option Int
  compressed : Bool
  deriving Repr, DecidableEq

/-- POST /api/upload (single shot): multer has already written the payload to
storedName in the uploads directory; when compression is requested and the
file is at least 10 KiB, gzip it, and keep the gzipped bytes only when they
are STRICTLY smaller than the original — otherwise the compressed artifact is
discarded and the original uncompressed bytes stay, with compressed recorded
false.  A compressor yielding empty output reproduces the thrown-and-caught
branch, which also falls back to the original.  (The stray empty temp file of
that branch is not modelled.) -/
def uploadSingle (st : ServerState) (originalname mimetype : String) (payload : Bytes)
    (storedName : String) (optimized : Bool) (compressFn : Bytes → Bytes)
    (b₁ b₂ b₃ : Fin 256) : ServerState × UploadOk :=
  let size := payload.length
  let code := hexCode b₁ b₂ b₃
  let compress0 := optimized && decide (10240 ≤ size)
  let st0 := { st with uploadsDir := upd st.uploadsDir storedName (some payload) }
  let recOrig : FileRecord :=
    { id := code, filename := some originalname, storedFilename := storedName
      mimetype := some mimetype, originalMimetype := none
      size := size, originalSize := none, compressed := false, chunked := false }
  let respOrig : UploadOk :=
    { code := code, filename := originalname, size := size
      originalSize := none, compressed := false }
  if compress0 then
    let gz := compressFn payload
    if gz.length = 0 then
      ({ st0 with files := commitFile st0.files recOrig }, respOrig)
    else if size ≤ gz.length then
      ({ st0 with files := commitFile st0.files recOrig }, respOrig)
    else
      let recGz : FileRecord :=
        { id := code, filename := some originalname, storedFilename := storedName
          mimetype := some "application/gzip", originalMimetype := some mimetype
          size := gz.length, originalSize := some (size : Int)
          compressed := true, chunked := false }
      ({ st0 with
          uploadsDir := upd st0.uploadsDir storedName (some gz)
          files := commitFile st0.files recGz },
       { code := code, filename := originalname, size := gz.length
         originalSize := some (size : Int), compressed := true })
  else
    ({ st0 with files := commitFile st0.files recOrig }, respOrig)

/-- db.files.find of the record whose id field is the code: the first record
in push order bearing the code. -/
def lookupFile (files : List FileRecord) (code : String) : Option FileRecord :=
  files.find? (fun f => f.id == code)

/-- POST /api/group: reject an empty id list, require every referenced file to
exist, then append a group record under a fresh 6-character code — again with
no look at the codes already taken. -/
def createGroup (st : ServerState) (fileIds : List String) (groupName : Option String)
    (b₁ b₂ b₃ : Fin 256) : ServerState × Option GroupRecord :=
  if fileIds.isEmpty then (st, none)
  else if fileIds.all (fun fid => (lookupFile st.files fid).isSome) then
    let g : GroupRecord :=
      { id := hexCode b₁ b₂ b₃
        name := groupName.getD ("File Group (" ++ natToDec fileIds.length ++ " files)")
        fileIds := fileIds
        fileCount := fileIds.length }
    ({ st with groups := st.groups ++ [g] }, some g)
  else (st, none)

/-- The canonical digit list of a number (the printer run with just enough fuel). -/
def decChars (n : Nat) : List Char := natToDecAux n n []

/-- The step the parser folds with. -/
def digitStep (a : Nat) (c : Char) : Nat := 10 * a + (c.toNat - 48)

/-- The byte-wise concatenation of chunk payloads in ascending index order
0,1,...,n-1 (the reference value the assembled artifact is compared to). -/
def ascConcat (n : Nat) (payload : Nat → Bytes) : Bytes :=
  ((List.range n).map payload).flatten

/-- Concrete test session: one chunk already accepted under parsed index 1. -/
def sessionDupFix : UploadSession :=
  { filename := some "f", totalChunks := some 2, receivedChunks := 1,
    receivedChunksMap := [some 1], fileSize := some 4, mimeType := none,
    uploadChunksDir := "u", createdAt := 0, chunkSize := 5242880 }

/-- Concrete test state holding sessionDupFix. -/
def stDupFix : ServerState :=
  { emptyState with sessions := upd emptyState.sessions "u" (some sessionDupFix) }

/-- Concrete test session whose count matches totalChunks = 1 although the
accepted parsed index was 5, so no file named 0 exists. -/
def sessionMissFix : UploadSession :=
  { filename := some "f", totalChunks := some 1, receivedChunks := 1,
    receivedChunksMap := [some 5], fileSize := some 1, mimeType := none,
    uploadChunksDir := "u", createdAt := 0, chunkSize := 5242880 }

/-- Concrete test state holding sessionMissFix over an empty chunk store. -/
def stMissFix : ServerState :=
  { emptyState with sessions := upd emptyState.sessions "u" (some sessionMissFix) }

/-- The session value produced by initializing with totalChunks = 1 and then
accepting one chunk under index string "5". -/
def sessionOffRangeFix : UploadSession :=
  { filename := some "f.txt", totalChunks := some 1, receivedChunks := 1,
    receivedChunksMap := [some 5], fileSize := some 3, mimeType := none,
    uploadChunksDir := "u", createdAt := 0, chunkSize := 5242880 }

/-- Concrete in-range complete session for the amended C2. -/
def sessionCovFix : UploadSession :=
  { filename := some "f", totalChunks := some 2, receivedChunks := 2,
    receivedChunksMap := [some 1, some 0], fileSize := some 4, mimeType := none,
    uploadChunksDir := "u", createdAt := 0, chunkSize := 5242880 }

/-- Concrete completable session: one chunk of one, with a deliberately wrong
declared total size of 999 bytes. -/
def sessionOkFix : UploadSession :=
  { filename := some "f", totalChunks := some 1, receivedChunks := 1,
    receivedChunksMap := [some 0], fileSize := some 999, mimeType := none,
    uploadChunksDir := "u", createdAt := 0, chunkSize := 5242880 }

/-- Concrete test state holding sessionOkFix and its single one-byte chunk
file named 0. -/
def stOkFix : ServerState :=
  { emptyState with
      sessions := upd emptyState.sessions "u" (some sessionOkFix)
      chunkFiles := upd emptyState.chunkFiles "u"
        (upd (emptyState.chunkFiles "u") "0" (some [9])) }

/-- The state reached by the end-to-end run of C8: init a two-chunk session,
then submit index strings "0" and "01" (both accepted, parsed 0 and 1, but
stored under the raw names "0" and "01"). -/
def stC8Fix : ServerState :=
  submitAll
    (initUpload emptyState "u" ⟨some "f", some "2", some "4", none, none⟩ 0).1
    "u" [("0", [10, 11]), ("01", [12, 13])]

/-- The session value held by stC8Fix. -/
def sessionC8Fix : UploadSession :=
  { filename := some "f", totalChunks := some 2, receivedChunks := 2,
    receivedChunksMap := [some 1, some 0], fileSize := some 4, mimeType := none,
    uploadChunksDir := "u", createdAt := 0, chunkSize := 5242880 }

/-- Concrete file record bearing the code "000000" (hexCode 0 0 0). -/
def recAFix : FileRecord :=
  { id := hexCode 0 0 0, filename := some "a", storedFilename := "sa",
    mimetype := none, originalMimetype := none, size := 1, originalSize := none,
    compressed := false, chunked := false }

/-- A second, different record committed later under the same code. -/
def recBFix : FileRecord :=
  { id := hexCode 0 0 0, filename := some "b", storedFilename := "sb",
    mimetype := none, originalMimetype := none, size := 2, originalSize := none,
    compressed := false, chunked := false }

/-! Helper lemmas: table updates, the decimal printer and its parse. -/

theorem upd_same {α : Type} (f : String → α) (k : String) (v : α) : upd f k v k = v := by
  simp [upd]

theorem upd_ne {α : Type} (f : String → α) (k : String) (v : α) (q : String) (h : q ≠ k) :
    upd f k v q = f q := by
  simp [upd, h]

theorem natToDecAux_append (fuel : Nat) : ∀ (n : Nat) (acc : List Char),
    natToDecAux fuel n acc = natToDecAux fuel n [] ++ acc := by
  induction fuel with
  | zero => intro n acc; simp [natToDecAux]
  | succ fuel ih =>
      intro n acc
      by_cases h : n = 0
      · simp [natToDecAux, h]
      · simp only [natToDecAux, if_neg h]
        rw [ih (n / 10) (digitChar (n % 10) :: acc), ih (n / 10) [digitChar (n % 10)]]
        simp

theorem natToDecAux_fuel_irrel : ∀ (n f₁ f₂ : Nat), n ≤ f₁ → n ≤ f₂ →
    natToDecAux f₁ n [] = natToDecAux f₂ n [] := by
  intro n
  induction n using Nat.strong_induction_on with
  | _ n ih =>
      intro f₁ f₂ h₁ h₂
      by_cases h : n = 0
      · subst h
        cases f₁ <;> cases f₂ <;> simp [natToDecAux]
      · have hpos : 0 < n := Nat.pos_of_ne_zero h
        cases f₁ with
        | zero => omega
        | succ a =>
            cases f₂ with
            | zero => omega
            | succ b =>
                have hdiv : n / 10 < n := Nat.div_lt_self hpos (by norm_num)
                simp only [natToDecAux, if_neg h]
                rw [natToDecAux_append a, natToDecAux_append b,
                  ih (n / 10) hdiv a b (by omega) (by omega)]

theorem natToDecAux_fuel (n fuel : Nat) (h : n ≤ fuel) :
    natToDecAux fuel n [] = decChars n :=
  natToDecAux_fuel_irrel n fuel n h le_rfl

theorem decChars_succ (n : Nat) (h : n ≠ 0) :
    decChars n = decChars (n / 10) ++ [digitChar (n % 10)] := by
  obtain ⟨m, rfl⟩ : ∃ m, n = m + 1 := ⟨n - 1, by omega⟩
  have hdm : (m + 1) / 10 ≤ m := by omega
  show natToDecAux (m + 1) (m + 1) [] = _
  simp only [natToDecAux, if_neg h]
  rw [natToDecAux_append, natToDecAux_fuel ((m + 1) / 10) m hdm]

theorem isDigitChar_digitChar (d : Nat) (h : d < 10) : isDigitChar (digitChar d) = true := by
  interval_cases d <;> decide

theorem digitChar_toNat (d : Nat) (h : d < 10) : (digitChar d).toNat = 48 + d := by
  interval_cases d <;> decide

theorem decChars_all_digits : ∀ (n : Nat), ∀ c ∈ decChars n, isDigitChar c = true := by
  intro n
  induction n using Nat.strong_induction_on with
  | _ n ih =>
      by_cases h : n = 0
      · subst h; intro c hc; simp [decChars, natToDecAux] at hc
      · rw [decChars_succ n h]
        intro c hc
        rcases List.mem_append.mp hc with hc | hc
        · exact ih (n / 10) (Nat.div_lt_self (Nat.pos_of_ne_zero h) (by norm_num)) c hc
        · have : c = digitChar (n % 10) := by simpa using hc
          subst this
          exact isDigitChar_digitChar _ (Nat.mod_lt _ (by norm_num))

theorem digitsAux_eq_foldl : ∀ (l : List Char), (∀ c ∈ l, isDigitChar c = true) →
    ∀ (a : Nat), digitsAux a l = l.foldl digitStep a := by
  intro l
  induction l with
  | nil => intro _ a; simp [digitsAux]
  | cons c cs ih =>
      intro hall a
      have hc : isDigitChar c = true := hall c (by simp)
      simp only [digitsAux, hc, if_pos, List.foldl_cons]
      exact ih (fun x hx => hall x (by simp [hx])) _

theorem foldl_digitStep_decChars : ∀ (n a : Nat),
    (decChars n).foldl digitStep a = a * 10 ^ (decChars n).length + n := by
  intro n
  induction n using Nat.strong_induction_on with
  | _ n ih =>
      intro a
      by_cases h : n = 0
      · subst h; simp [decChars, natToDecAux]
      · rw [decChars_succ n h]
        rw [List.foldl_append]
        rw [ih (n / 10) (Nat.div_lt_self (Nat.pos_of_ne_zero h) (by norm_num)) a]
        simp only [List.foldl_cons, List.foldl_nil, List.length_append, List.length_cons,
          List.length_nil]
        rw [digitStep, digitChar_toNat (n % 10) (Nat.mod_lt _ (by norm_num))]
        have : 48 + n % 10 - 48 = n % 10 := by omega
        rw [this]
        have hmod : 10 * (n / 10) + n % 10 = n := by omega
        ring_nf
        omega

theorem decChars_ne_nil (n : Nat) (h : n ≠ 0) : decChars n ≠ [] := by
  rw [decChars_succ n h]; simp

theorem digitsVal_decChars (n : Nat) (h : n ≠ 0) : digitsVal (decChars n) = some n := by
  obtain ⟨c, cs, hccs⟩ : ∃ c cs, decChars n = c :: cs := by
    cases hd : decChars n with
    | nil => exact absurd hd (decChars_ne_nil n h)
    | cons c cs => exact ⟨c, cs, rfl⟩
  have hall := decChars_all_digits n
  rw [hccs] at hall
  have hc : isDigitChar c = true := hall c (by simp)
  have hcs : ∀ x ∈ cs, isDigitChar x = true := fun x hx => hall x (by simp [hx])
  rw [hccs, digitsVal, if_pos hc]
  rw [digitsAux_eq_foldl cs hcs]
  have hfold : (decChars n).foldl digitStep 0 = n := by
    rw [foldl_digitStep_decChars n 0]; simp
  rw [hccs, List.foldl_cons] at hfold
  rw [digitStep] at hfold
  simp only [Nat.mul_zero, Nat.zero_add] at hfold
  rw [hfold]

theorem digit_ne_minus {c : Char} (h : isDigitChar c = true) : c ≠ '-' := by
  intro he; rw [he] at h; exact absurd h (by decide)

theorem digit_ne_plus {c : Char} (h : isDigitChar c = true) : c ≠ '+' := by
  intro he; rw [he] at h; exact absurd h (by decide)

theorem parseIntJs_natToDec (n : Nat) : parseIntJs (natToDec n) = some (n : Int) := by
  by_cases h : n = 0
  · subst h; decide
  · obtain ⟨c, cs, hccs⟩ : ∃ c cs, decChars n = c :: cs := by
      cases hd : decChars n with
      | nil => exact absurd hd (decChars_ne_nil n h)
      | cons c cs => exact ⟨c, cs, rfl⟩
    have hc : isDigitChar c = true := by
      have := decChars_all_digits n; rw [hccs] at this; exact this c (by simp)
    have hstr : natToDec n = ⟨c :: cs⟩ := by
      rw [natToDec, if_neg h]
      exact congrArg String.mk hccs
    have hm : c ≠ '-' := digit_ne_minus hc
    have hp : c ≠ '+' := digit_ne_plus hc
    have hval : digitsVal (c :: cs) = some n := by rw [← hccs]; exact digitsVal_decChars n h
    rw [hstr]
    show parseIntJs ⟨c :: cs⟩ = some (n : Int)
    simp only [parseIntJs, if_neg hm, if_neg hp, hval, Option.map_some']
    rfl

theorem natToDec_injective : Function.Injective natToDec := by
  intro a b hab
  have ha := parseIntJs_natToDec a
  have hb := parseIntJs_natToDec b
  rw [hab, hb] at ha
  have : (b : Int) = (a : Int) := by injection ha
  exact_mod_cast this.symm

/-! Helper lemmas about the assembly loop. -/

theorem combineFrom_ok (read : String → Option Bytes) (g : Nat → Bytes) :
    ∀ (fuel i : Nat), (∀ k, k < fuel → read (natToDec (i + k)) = some (g (i + k))) →
    combineFrom read i fuel = .ok (((List.range' i fuel).map g).flatten) := by
  intro fuel
  induction fuel with
  | zero => intro i _; simp [combineFrom]
  | succ fuel ih =>
      intro i hall
      have h0 : read (natToDec i) = some (g i) := by
        have := hall 0 (by omega); simpa using this
      have hrest : ∀ k, k < fuel → read (natToDec (i + 1 + k)) = some (g (i + 1 + k)) := by
        intro k hk
        have := hall (k + 1) (by omega)
        have harg : i + (k + 1) = i + 1 + k := by omega
        rw [harg] at this; exact this
      simp only [combineFrom, h0, ih (i + 1) hrest, Except.map, List.range'_succ,
        List.map_cons, List.flatten_cons]

theorem combineFrom_missing (read : String → Option Bytes) :
    ∀ (fuel i : Nat), (∃ k, k < fuel ∧ read (natToDec (i + k)) = none) →
    ∃ k, k < fuel ∧ read (natToDec (i + k)) = none ∧
      combineFrom read i fuel = .error (i + k) := by
  intro fuel
  induction fuel with
  | zero => intro i ⟨k, hk, _⟩; omega
  | succ fuel ih =>
      intro i ⟨k, hk, hnone⟩
      cases h0 : read (natToDec i) with
      | none =>
          exact ⟨0, by omega, by simpa using h0, by simp [combineFrom, h0]⟩
      | some b =>
          have hkpos : k ≠ 0 := by
            intro hz; subst hz; simp at hnone; rw [hnone] at h0; cases h0
          obtain ⟨k2, rfl⟩ : ∃ k2, k = k2 + 1 := ⟨k - 1, by omega⟩
          have harg : i + (k2 + 1) = i + 1 + k2 := by omega
          rw [harg] at hnone
          obtain ⟨k3, hk3, hn3, hcomb⟩ := ih (i + 1) ⟨k2, by omega, hnone⟩
          refine ⟨k3 + 1, by omega, ?_, ?_⟩
          · have harg2 : i + (k3 + 1) = i + 1 + k3 := by omega
            rw [harg2]; exact hn3
          · have harg2 : i + (k3 + 1) = i + 1 + k3 := by omega
            simp only [combineFrom, h0, hcomb, Except.map, harg2]

/-- Every failing completion call leaves the server state exactly as it was
(the session is kept, so that the client can retry). -/
theorem completeUpload_error_frame (st : ServerState) (uploadId : String)
    (compressReq : Bool) (compressFn : Bytes → Bytes) (b₁ b₂ b₃ : Fin 256) (now : Nat)
    (st2 : ServerState) (e : CompleteError)
    (h : completeUpload st uploadId compressReq compressFn b₁ b₂ b₃ now = (st2, .error e)) :
    st2 = st := by
  unfold completeUpload at h
  split at h
  · exact (Prod.mk.injEq .. ▸ h).1.symm
  · split at h
    · split at h
      · exact (Prod.mk.injEq .. ▸ h).1.symm
      · split at h
        · exact (Prod.mk.injEq .. ▸ h).1.symm
        · simp at h
    · exact (Prod.mk.injEq .. ▸ h).1.symm

/-- Cumulative effect of pushing a list of chunk submissions with distinct,
not-yet-received canonical decimal indices and nonempty payloads through
POST /api/upload/chunk: the count grows by the list length, the received set
gains exactly the submitted indices, and the session's chunk directory maps
each submitted index name to its payload, other names untouched. -/
theorem submitAll_effect (payload : Nat → Bytes) (uid : String) :
    ∀ (todo : List Nat) (st : ServerState) (s : UploadSession) (dir : String),
    st.sessions uid = some s →
    s.uploadChunksDir = dir →
    todo.Nodup →
    (∀ i ∈ todo, (some (i : Int) : Option Int) ∉ s.receivedChunksMap) →
    (∀ i ∈ todo, payload i ≠ []) →
    ∃ s2,
      (submitAll st uid (todo.map (fun i => (natToDec i, payload i)))).sessions uid
          = some s2 ∧
      s2.receivedChunks = s.receivedChunks + todo.length ∧
      s2.totalChunks = s.totalChunks ∧
      s2.filename = s.filename ∧
      s2.fileSize = s.fileSize ∧
      s2.uploadChunksDir = dir ∧
      (∀ x : Option Int, x ∈ s2.receivedChunksMap ↔
        (x ∈ s.receivedChunksMap ∨ ∃ i ∈ todo, x = some (i : Int))) ∧
      (∀ i ∈ todo,
        (submitAll st uid (todo.map (fun i => (natToDec i, payload i)))).chunkFiles dir
          (natToDec i) = some (payload i)) ∧
      (∀ key : String, (∀ i ∈ todo, natToDec i ≠ key) →
        (submitAll st uid (todo.map (fun i => (natToDec i, payload i)))).chunkFiles dir key
          = st.chunkFiles dir key) := by
  intro todo
  induction todo with
  | nil =>
      intro st s dir hs hdir _ _ _
      refine ⟨s, ?_, by simp, rfl, rfl, rfl, hdir, by simp, by simp, fun key _ => rfl⟩
      simpa [submitAll] using hs
  | cons hd rest ih =>
      intro st s dir hs hdir hnodup hfresh hne
      have hparse : parseIntJs (natToDec hd) = some (hd : Int) := parseIntJs_natToDec hd
      have hmem : (some (hd : Int) : Option Int) ∉ s.receivedChunksMap :=
        hfresh hd (by simp)
      have hnonempty : (payload hd).isEmpty = false := by
        cases hp : payload hd with
        | nil => exact absurd hp (hne hd (by simp))
        | cons a l => rfl
      obtain ⟨hhd, hrestnodup⟩ := List.nodup_cons.mp hnodup
      have hstep : (acceptChunk st uid (natToDec hd) (payload hd)).1 = { st with
          sessions := upd st.sessions uid (some { s with
            receivedChunks := s.receivedChunks + 1
            receivedChunksMap := some (hd : Int) :: s.receivedChunksMap })
          chunkFiles := upd st.chunkFiles s.uploadChunksDir
            (upd (st.chunkFiles s.uploadChunksDir) (natToDec hd) (some (payload hd))) } := by
        simp [acceptChunk, hs, hparse, hnonempty, hmem]
      have hfold : submitAll st uid ((hd :: rest).map (fun i => (natToDec i, payload i)))
          = submitAll (acceptChunk st uid (natToDec hd) (payload hd)).1 uid
              (rest.map (fun i => (natToDec i, payload i))) := rfl
      set st1 : ServerState := { st with
          sessions := upd st.sessions uid (some { s with
            receivedChunks := s.receivedChunks + 1
            receivedChunksMap := some (hd : Int) :: s.receivedChunksMap })
          chunkFiles := upd st.chunkFiles s.uploadChunksDir
            (upd (st.chunkFiles s.uploadChunksDir) (natToDec hd) (some (payload hd))) }
        with hst1
      have hfold2 : submitAll st uid ((hd :: rest).map (fun i => (natToDec i, payload i)))
          = submitAll st1 uid (rest.map (fun i => (natToDec i, payload i))) := by
        rw [hfold, hstep]
      have hs1 : st1.sessions uid = some { s with
          receivedChunks := s.receivedChunks + 1
          receivedChunksMap := some (hd : Int) :: s.receivedChunksMap } := upd_same ..
      have hfresh1 : ∀ i ∈ rest, (some (i : Int) : Option Int) ∉
          (some (hd : Int) :: s.receivedChunksMap) := by
        intro i hi hin
        simp only [List.mem_cons] at hin
        rcases hin with hin | hin
        · have : i = hd := by
            have : (i : Int) = (hd : Int) := by injection hin
            exact_mod_cast this
          exact hhd (this ▸ hi)
        · exact hfresh i (by simp [hi]) hin
      obtain ⟨s2, P1, P2, P3, P4, P5, P6, P7, P8, P9⟩ :=
        ih st1 _ dir hs1 hdir hrestnodup hfresh1 (fun i hi => hne i (by simp [hi]))
      have hkeyne : ∀ i ∈ rest, natToDec i ≠ natToDec hd := by
        intro i hi hcontra
        exact hhd (natToDec_injective hcontra ▸ hi)
      refine ⟨s2, ?_, ?_, ?_, ?_, ?_, P6, ?_, ?_, ?_⟩
      · rw [hfold2]; exact P1
      · simp only [List.length_cons]
        simp at P2
        omega
      · exact P3
      · exact P4
      · exact P5
      · intro x
        rw [P7 x]
        simp only [List.mem_cons]
        constructor
        · rintro (⟨h1 | h1⟩ | ⟨i, hi, hx⟩)
          · exact Or.inr ⟨hd, Or.inl rfl, h1⟩
          · exact Or.inl h1
          · exact Or.inr ⟨i, Or.inr hi, hx⟩
        · rintro (h1 | ⟨i, hi | hi, hx⟩)
          · exact Or.inl (Or.inr h1)
          · exact Or.inl (Or.inl (hi ▸ hx))
          · exact Or.inr ⟨i, hi, hx⟩
      · intro i hi
        rw [hfold2]
        rcases List.mem_cons.mp hi with rfl | hi2
        · rw [P9 (natToDec i) (hkeyne)]
          rw [hst1]
          show (upd st.chunkFiles s.uploadChunksDir _) dir (natToDec i) = _
          rw [hdir, upd_same, upd_same]
        · exact P8 i hi2
      · intro key hkey
        rw [hfold2]
        rw [P9 key (fun i hi => hkey i (by simp [hi]))]
        rw [hst1]
        show (upd st.chunkFiles s.uploadChunksDir _) dir key = _
        rw [hdir, upd_same, upd_ne _ _ _ _ (fun hcontra => hkey hd (by simp) hcontra.symm)]

/-- Unfolding of the successful completion branch: with a known session, a
passing completeness check, a present filename and a successful chunk
concatenation, the route stores the (possibly compressed) bytes, appends the
record and answers with the measured size. -/
theorem completeUpload_ok (st : ServerState) (uploadId : String) (s : UploadSession)
    (fname : String) (data : Bytes) (compressReq : Bool) (compressFn : Bytes → Bytes)
    (b₁ b₂ b₃ : Fin 256) (now : Nat)
    (hs : st.sessions uploadId = some s)
    (hc : sessionComplete s)
    (hf : s.filename = some fname)
    (hcomb : combineChunks (st.chunkFiles s.uploadChunksDir)
      ((s.totalChunks.getD 0).toNat) = .ok data) :
    completeUpload st uploadId compressReq compressFn b₁ b₂ b₃ now =
      (let code := hexCode b₁ b₂ b₃
       let storedFilename := chunkedStoredName now code fname compressReq
       let compress := compressReq && !(declaredSmall s.fileSize)
       let out := if compress then compressFn data else data
       ({ st with
          files := commitFile st.files
            { id := code, filename := some fname, storedFilename := storedFilename,
              mimetype := if compress then some "application/gzip" else s.mimeType,
              originalMimetype := if compress then s.mimeType else none,
              size := out.length,
              originalSize := if compress then s.fileSize else none,
              compressed := compress, chunked := true },
          uploadsDir := upd st.uploadsDir storedFilename (some out),
          chunkFiles := upd st.chunkFiles s.uploadChunksDir (fun _ => none),
          sessions := upd st.sessions uploadId none },
        .ok { code := code, filename := some fname, size := out.length,
              originalSize := if compress then s.fileSize else none,
              compressed := compress })) := by
  unfold completeUpload
  rw [hs]
  simp only [if_pos hc, hf, hcomb]

/-- C1: for every complete upload session and every arrival order of its
chunks (any listing of the indices 0..totalChunks-1, each submitted once with
its canonical decimal name and a nonempty payload), completing the session
with compression disabled succeeds and produces an artifact equal to the
byte-wise concatenation of the chunk payloads in ascending index order,
with the reported size matching; in particular the order [2,0,1] assembles
identically to [0,1,2]. -/
theorem assembly_reproduces_ordered_concatenation
    (n : Nat) (payload : Nat → Bytes) (order : List Nat)
    (hperm : order.Perm (List.range n))
    (hne : ∀ i, i < n → payload i ≠ [])
    (st0 : ServerState) (uid fname fsz mt : String) (t0 now : Nat)
    (b₁ b₂ b₃ : Fin 256) (compressFn : Bytes → Bytes) :
    (completeUpload
        (submitAll
          (initUpload st0 uid ⟨some fname, some (natToDec n), some fsz, some mt, none⟩ t0).1
          uid (order.map (fun i => (natToDec i, payload i))))
        uid false compressFn b₁ b₂ b₃ now).2
      = .ok { code := hexCode b₁ b₂ b₃, filename := some fname,
              size := (ascConcat n payload).length, originalSize := none,
              compressed := false }
    ∧ (completeUpload
        (submitAll
          (initUpload st0 uid ⟨some fname, some (natToDec n), some fsz, some mt, none⟩ t0).1
          uid (order.map (fun i => (natToDec i, payload i))))
        uid false compressFn b₁ b₂ b₃ now).1.uploadsDir
          (chunkedStoredName now (hexCode b₁ b₂ b₃) fname false)
      = some (ascConcat n payload) := by
  have hnodup : order.Nodup := (hperm.nodup_iff).mpr (List.nodup_range n)
  have hmemo : ∀ i, i < n → i ∈ order := fun i hi =>
    (hperm.mem_iff).mpr (List.mem_range.mpr hi)
  have hsubo : ∀ i ∈ order, i < n := fun i hi =>
    List.mem_range.mp (hperm.subset hi)
  obtain ⟨s2, P1, P2, P3, P4, P5, P6, P7, P8, P9⟩ :=
    submitAll_effect payload uid order
      (initUpload st0 uid ⟨some fname, some (natToDec n), some fsz, some mt, none⟩ t0).1
      { filename := some fname
        totalChunks := parseIntJs (natToDec n)
        receivedChunks := 0
        receivedChunksMap := []
        fileSize := parseIntJs fsz
        mimeType := some mt
        uploadChunksDir := uid
        createdAt := t0
        chunkSize := 5242880 }
      uid (upd_same ..) rfl hnodup (by simp) (fun i hi => hne i (hsubo i hi))
  rw [parseIntJs_natToDec n] at P3
  have hcount : s2.receivedChunks = n := by
    rw [P2, hperm.length_eq, List.length_range]; simp
  have hcomplete : sessionComplete s2 := by
    rw [sessionComplete, P3, hcount]
  have hgetd : (s2.totalChunks.getD 0).toNat = n := by
    rw [P3]; simp
  have hreads : ∀ k, k < n →
      (submitAll
        (initUpload st0 uid ⟨some fname, some (natToDec n), some fsz, some mt, none⟩ t0).1
        uid (order.map (fun i => (natToDec i, payload i)))).chunkFiles uid (natToDec (0 + k))
      = some (payload (0 + k)) := by
    intro k hk
    simpa using P8 k (hmemo k hk)
  have hcomb : combineChunks
      ((submitAll
        (initUpload st0 uid ⟨some fname, some (natToDec n), some fsz, some mt, none⟩ t0).1
        uid (order.map (fun i => (natToDec i, payload i)))).chunkFiles s2.uploadChunksDir)
      ((s2.totalChunks.getD 0).toNat) = .ok (ascConcat n payload) := by
    rw [hgetd, P6, combineChunks, combineFrom_ok _ payload n 0 hreads, ascConcat,
      List.range_eq_range']
  rw [completeUpload_ok _ uid s2 fname (ascConcat n payload) false compressFn b₁ b₂ b₃ now
    P1 hcomplete P4 hcomb]
  simp only [Bool.false_and, if_neg (by simp : ¬(false && !declaredSmall s2.fileSize) = true)]
  exact ⟨rfl, upd_same ..⟩

/-- Witness for C1: three two-byte chunks submitted in arrival order [2,0,1]
assemble to chunk0 ++ chunk1 ++ chunk2. -/
theorem assembly_reproduces_ordered_concatenation_witness :
    ([2, 0, 1] : List Nat).Perm (List.range 3) ∧
    (∀ i, i < 3 → ([[1, 2], [3, 4], [5, 6]] : List Bytes).getD i [] ≠ []) ∧
    ascConcat 3 (fun i => ([[1, 2], [3, 4], [5, 6]] : List Bytes).getD i [])
      = [1, 2, 3, 4, 5, 6] ∧
    (completeUpload
        (submitAll
          (initUpload emptyState "u"
            ⟨some "f.txt", some (natToDec 3), some "6", some "text/plain", none⟩ 0).1
          "u" (([2, 0, 1] : List Nat).map
            (fun i => (natToDec i, ([[1, 2], [3, 4], [5, 6]] : List Bytes).getD i []))))
        "u" false (fun b => b) 0 0 0 0).2
      = .ok { code := hexCode 0 0 0, filename := some "f.txt",
              size := (ascConcat 3
                (fun i => ([[1, 2], [3, 4], [5, 6]] : List Bytes).getD i [])).length,
              originalSize := none, compressed := false } :=
  ⟨by decide, by decide, by decide,
   (assembly_reproduces_ordered_concatenation 3
      (fun i => ([[1, 2], [3, 4], [5, 6]] : List Bytes).getD i []) [2, 0, 1]
      (by decide) (by decide) emptyState "u" "f.txt" "6" "text/plain" 0 0 0 0 0
      (fun b => b)).1⟩

/-- C2 counterexample: a session declared with totalChunks = 1 receives its
single accepted chunk under index string "5"; the completeness check that the
complete route performs (receivedChunks equal to totalChunks) passes although
index 0 was never accepted — so the check is NOT equivalent to full coverage
of [0,totalChunks). -/
theorem completeness_check_passes_without_index_coverage :
    (submitAll (initUpload emptyState "u"
        ⟨some "f.txt", some "1", some "3", none, none⟩ 0).1
      "u" [("5", [9, 9, 9])]).sessions "u" = some sessionOffRangeFix ∧
    sessionComplete sessionOffRangeFix ∧
    ¬ ((some (0 : Int) : Option Int) ∈ sessionOffRangeFix.receivedChunksMap) := by
  refine ⟨?_, by decide, by decide⟩
  decide

/-- C2 amended: under the registry invariant (count equals the number of
distinct accepted parsed indices) the completeness condition checked by
complete holds iff that number equals totalChunks; when every accepted index
additionally lies in [0,totalChunks), this is equivalent to every index in
[0,totalChunks) having been accepted at least once. -/
theorem completeness_check_iff_coverage_of_in_range
    (s : UploadSession) (n : Nat)
    (hinv : s.receivedChunks = s.receivedChunksMap.length)
    (hnodup : s.receivedChunksMap.Nodup)
    (htot : s.totalChunks = some (n : Int))
    (hrange : ∀ x ∈ s.receivedChunksMap, ∃ i : Nat, i < n ∧ x = some (i : Int)) :
    sessionComplete s ↔
      ∀ i : Nat, i < n → (some (i : Int) : Option Int) ∈ s.receivedChunksMap := by
  have hinj : Function.Injective (fun i : Nat => (some (i : Int) : Option Int)) := by
    intro a b hab
    simp only [Option.some.injEq] at hab
    exact_mod_cast hab
  have hSnodup : ((List.range n).map (fun i : Nat => (some (i : Int) : Option Int))).Nodup :=
    (List.nodup_range n).map hinj
  have hsub : s.receivedChunksMap ⊆
      (List.range n).map (fun i : Nat => (some (i : Int) : Option Int)) := by
    intro x hx
    obtain ⟨i, hi, rfl⟩ := hrange x hx
    exact List.mem_map.mpr ⟨i, List.mem_range.mpr hi, rfl⟩
  have hcomp : sessionComplete s ↔ s.receivedChunksMap.length = n := by
    rw [sessionComplete, htot, hinv]
    constructor
    · intro hh
      have : (n : Int) = (s.receivedChunksMap.length : Int) := by injection hh
      exact_mod_cast this.symm
    · intro hh; rw [hh]
  rw [hcomp]
  constructor
  · intro hlen i hi
    have hsubF : s.receivedChunksMap.toFinset ⊆
        ((List.range n).map (fun i : Nat => (some (i : Int) : Option Int))).toFinset := by
      intro x hx
      exact List.mem_toFinset.mpr (hsub (List.mem_toFinset.mp hx))
    have hcards : (((List.range n).map
        (fun i : Nat => (some (i : Int) : Option Int))).toFinset).card ≤
        s.receivedChunksMap.toFinset.card := by
      rw [List.toFinset_card_of_nodup hnodup, List.toFinset_card_of_nodup hSnodup]
      simp [hlen]
    have heq := Finset.eq_of_subset_of_card_le hsubF hcards
    have hmemS : (some (i : Int) : Option Int) ∈
        ((List.range n).map (fun i : Nat => (some (i : Int) : Option Int))) :=
      List.mem_map.mpr ⟨i, List.mem_range.mpr hi, rfl⟩
    have := heq ▸ List.mem_toFinset.mpr hmemS
    exact List.mem_toFinset.mp this
  · intro hcov
    have hsubF : s.receivedChunksMap.toFinset ⊆
        ((List.range n).map (fun i : Nat => (some (i : Int) : Option Int))).toFinset := by
      intro x hx
      exact List.mem_toFinset.mpr (hsub (List.mem_toFinset.mp hx))
    have hsubF2 : ((List.range n).map
        (fun i : Nat => (some (i : Int) : Option Int))).toFinset ⊆
        s.receivedChunksMap.toFinset := by
      intro x hx
      obtain ⟨i, hi, rfl⟩ := List.mem_map.mp (List.mem_toFinset.mp hx)
      exact List.mem_toFinset.mpr (hcov i (List.mem_range.mp hi))
    have h1 := Finset.card_le_card hsubF
    have h2 := Finset.card_le_card hsubF2
    rw [List.toFinset_card_of_nodup hnodup, List.toFinset_card_of_nodup hSnodup] at h1 h2
    simp only [List.length_map, List.length_range] at h1 h2
    omega

/-- Witness for the amended C2 on a concrete in-range session. -/
theorem completeness_check_iff_coverage_of_in_range_witness :
    (∀ x ∈ sessionCovFix.receivedChunksMap, ∃ i : Nat, i < 2 ∧ x = some (i : Int)) ∧
    (sessionComplete sessionCovFix ↔
      ∀ i : Nat, i < 2 → (some (i : Int) : Option Int) ∈ sessionCovFix.receivedChunksMap) :=
  ⟨by decide,
   completeness_check_iff_coverage_of_in_range sessionCovFix 2
     (by decide) (by decide) (by decide) (by decide)⟩

/-- C3: resubmitting a chunk whose parsed index is already in the session's
received set leaves the whole server state — stored chunk count and stored
chunk bytes included — unchanged, and is acknowledged with duplicate = true,
not an error. -/
theorem duplicate_chunk_is_noop_ack
    (st : ServerState) (uid idx : String) (payload : Bytes) (s : UploadSession)
    (hs : st.sessions uid = some s)
    (hdup : parseIntJs idx ∈ s.receivedChunksMap) :
    acceptChunk st uid idx payload = (st, .accepted s.receivedChunks s.totalChunks true) := by
  simp [acceptChunk, hs, hdup]

/-- Witness for C3: index string "01" parses to the already received index 1
and is acknowledged as a duplicate with nothing changed. -/
theorem duplicate_chunk_is_noop_ack_witness :
    (parseIntJs "01" ∈ sessionDupFix.receivedChunksMap) ∧
    acceptChunk stDupFix "u" "01" [7]
      = (stDupFix, .accepted sessionDupFix.receivedChunks sessionDupFix.totalChunks true) :=
  ⟨by decide,
   duplicate_chunk_is_noop_ack stDupFix "u" "01" [7] sessionDupFix rfl (by decide)⟩

/-- Unfolding of the failing-assembly branch of completion: a missing chunk
file surfaces as the missing-chunk error and the state is untouched. -/
theorem completeUpload_missing (st : ServerState) (uploadId : String) (s : UploadSession)
    (fname : String) (i : Nat) (compressReq : Bool) (compressFn : Bytes → Bytes)
    (b₁ b₂ b₃ : Fin 256) (now : Nat)
    (hs : st.sessions uploadId = some s)
    (hc : sessionComplete s)
    (hf : s.filename = some fname)
    (hcomb : combineChunks (st.chunkFiles s.uploadChunksDir)
      ((s.totalChunks.getD 0).toNat) = .error i) :
    completeUpload st uploadId compressReq compressFn b₁ b₂ b₃ now
      = (st, .error (.missingChunk i)) := by
  unfold completeUpload
  rw [hs]
  simp only [if_pos hc, hf, hcomb]

/-- C4: whenever the completeness check passes (count equal to totalChunks)
but the chunk file of some index in [0,totalChunks) does not exist on disk at
assembly time, completion fails with the missing-chunk error naming such an
index, and the state is left unchanged so the registry keeps its drifted
bookkeeping. -/
theorem complete_fails_on_missing_chunk
    (st : ServerState) (uid fname : String) (s : UploadSession)
    (compressReq : Bool) (compressFn : Bytes → Bytes) (b₁ b₂ b₃ : Fin 256) (now : Nat)
    (hs : st.sessions uid = some s)
    (hc : sessionComplete s)
    (hf : s.filename = some fname)
    (hmiss : ∃ k, k < (s.totalChunks.getD 0).toNat ∧
      st.chunkFiles s.uploadChunksDir (natToDec k) = none) :
    ∃ k, k < (s.totalChunks.getD 0).toNat ∧
      st.chunkFiles s.uploadChunksDir (natToDec k) = none ∧
      completeUpload st uid compressReq compressFn b₁ b₂ b₃ now
        = (st, .error (.missingChunk k)) := by
  obtain ⟨k0, hk0, hn0⟩ := hmiss
  obtain ⟨k, hk, hn, hcomb⟩ := combineFrom_missing
    (st.chunkFiles s.uploadChunksDir) ((s.totalChunks.getD 0).toNat) 0
    ⟨k0, hk0, by simpa using hn0⟩
  refine ⟨k, hk, by simpa using hn, ?_⟩
  have hcomb2 : combineChunks (st.chunkFiles s.uploadChunksDir)
      ((s.totalChunks.getD 0).toNat) = .error k := by
    rw [combineChunks, hcomb]; simp
  exact completeUpload_missing st uid s fname k compressReq compressFn b₁ b₂ b₃ now
    hs hc hf hcomb2

/-- Witness for C4: a session whose count matches totalChunks = 1 while the
disk has no file named 0 fails completion with the missing-chunk error at 0. -/
theorem complete_fails_on_missing_chunk_witness :
    sessionComplete sessionMissFix ∧
    (∃ k, k < (sessionMissFix.totalChunks.getD 0).toNat ∧
      stMissFix.chunkFiles sessionMissFix.uploadChunksDir (natToDec k) = none ∧
      completeUpload stMissFix "u" false (fun b => b) 0 0 0 0
        = (stMissFix, .error (.missingChunk k))) :=
  ⟨by decide,
   complete_fails_on_missing_chunk stMissFix "u" "f" sessionMissFix
     false (fun b => b) 0 0 0 0 rfl (by decide) rfl
     ⟨0, by decide, by decide⟩⟩

/-- C5 counterexample: a chunked upload of 10240 bytes completed with
compression requested, where the compressor's output (one byte longer, as
gzip is on incompressible input) is not smaller than the original; the
chunked completion path nevertheless keeps the compressed artifact and
records compressed = true with the compressed size — it never performs the
compare-and-discard step of the single-shot path. -/
theorem chunked_path_keeps_larger_compressed_artifact :
    (List.replicate 10240 (7 : Nat)).length ≤
      ((fun bs : Bytes => 0 :: bs) (List.replicate 10240 (7 : Nat))).length ∧
    (completeUpload
        (submitAll
          (initUpload emptyState "u"
            ⟨some "f.bin", some "1", some (natToDec 10240), some "b", none⟩ 0).1
          "u" [("0", List.replicate 10240 (7 : Nat))])
        "u" true (fun bs => 0 :: bs) 0 0 0 0).2
      = .ok { code := hexCode 0 0 0, filename := some "f.bin", size := 10241,
              originalSize := some 10240, compressed := true } ∧
    (completeUpload
        (submitAll
          (initUpload emptyState "u"
            ⟨some "f.bin", some "1", some (natToDec 10240), some "b", none⟩ 0).1
          "u" [("0", List.replicate 10240 (7 : Nat))])
        "u" true (fun bs => 0 :: bs) 0 0 0 0).1.uploadsDir
        (chunkedStoredName 0 (hexCode 0 0 0) "f.bin" true)
      = some (0 :: List.replicate 10240 (7 : Nat)) := by
  refine ⟨by simp only [List.length_replicate, List.length_cons]; omega, ?_⟩
  obtain ⟨s2, P1, P2, P3, P4, P5, P6, P7, P8, P9⟩ :=
    submitAll_effect (fun _ => List.replicate 10240 (7 : Nat)) "u" [0]
      (initUpload emptyState "u"
        ⟨some "f.bin", some "1", some (natToDec 10240), some "b", none⟩ 0).1
      { filename := some "f.bin", totalChunks := some 1, receivedChunks := 0,
        receivedChunksMap := [], fileSize := some 10240, mimeType := some "b",
        uploadChunksDir := "u", createdAt := 0, chunkSize := 5242880 }
      "u" (by decide) rfl (by decide) (by decide)
      (fun i _ => List.length_pos.mp (by rw [List.length_replicate]; omega))
  have hs2 : (submitAll
      (initUpload emptyState "u"
        ⟨some "f.bin", some "1", some (natToDec 10240), some "b", none⟩ 0).1
      "u" [("0", List.replicate 10240 (7 : Nat))]).sessions "u" = some s2 := P1
  have hcount : s2.receivedChunks = 1 := by rw [P2]; rfl
  have hcomplete : sessionComplete s2 := by
    rw [sessionComplete, P3, hcount]; decide
  have hread : (submitAll
      (initUpload emptyState "u"
        ⟨some "f.bin", some "1", some (natToDec 10240), some "b", none⟩ 0).1
      "u" [("0", List.replicate 10240 (7 : Nat))]).chunkFiles "u" (natToDec 0)
      = some (List.replicate 10240 (7 : Nat)) := P8 0 (by simp)
  have hcomb : combineChunks
      ((submitAll
        (initUpload emptyState "u"
          ⟨some "f.bin", some "1", some (natToDec 10240), some "b", none⟩ 0).1
        "u" [("0", List.replicate 10240 (7 : Nat))]).chunkFiles s2.uploadChunksDir)
      ((s2.totalChunks.getD 0).toNat) = .ok (List.replicate 10240 (7 : Nat)) := by
    rw [P6, P3]
    show combineFrom _ 0 1 = _
    have hreads : ∀ k, k < 1 →
        (submitAll
          (initUpload emptyState "u"
            ⟨some "f.bin", some "1", some (natToDec 10240), some "b", none⟩ 0).1
          "u" [("0", List.replicate 10240 (7 : Nat))]).chunkFiles "u" (natToDec (0 + k))
        = some ((fun _ : Nat => List.replicate 10240 (7 : Nat)) (0 + k)) := by
      intro k hk
      obtain rfl : k = 0 := by omega
      exact hread
    rw [combineFrom_ok _ (fun _ : Nat => List.replicate 10240 (7 : Nat)) 1 0 hreads]
    rw [show List.range' 0 1 = [0] from rfl, List.map_cons, List.map_nil,
      List.flatten_cons, List.flatten_nil, List.append_nil]
  rw [completeUpload_ok _ "u" s2 "f.bin" (List.replicate 10240 (7 : Nat)) true
    (fun bs => 0 :: bs) 0 0 0 0 hs2 hcomplete P4 hcomb]
  have hsmall : declaredSmall s2.fileSize = false := by rw [P5]; decide
  have hcompress : (true && !declaredSmall (some (10240 : Int))) = true := by decide
  refine ⟨?_, ?_⟩
  · simp only [P5, hcompress, if_true, List.length_cons, List.length_replicate]
  · simp only [P5, hcompress, if_true]
    rw [upd_same]

/-- C5 amended: on the single-shot upload path the compare-then-discard
contract does hold: whenever compression is requested and the compressed
output is not smaller than the original, the compressed artifact is
discarded, the original uncompressed bytes are stored, and compressed = false
is recorded in both the file record and the response (the chunked completion
path, per the counterexample, skips this comparison). -/
theorem single_shot_compression_fallback
    (st : ServerState) (originalname mimetype storedName : String) (payload : Bytes)
    (optimized : Bool) (compressFn : Bytes → Bytes) (b₁ b₂ b₃ : Fin 256)
    (hge : payload.length ≤ (compressFn payload).length) :
    (uploadSingle st originalname mimetype payload storedName optimized
        compressFn b₁ b₂ b₃).2
      = { code := hexCode b₁ b₂ b₃, filename := originalname, size := payload.length,
          originalSize := none, compressed := false } ∧
    (uploadSingle st originalname mimetype payload storedName optimized
        compressFn b₁ b₂ b₃).1.uploadsDir storedName = some payload ∧
    (uploadSingle st originalname mimetype payload storedName optimized
        compressFn b₁ b₂ b₃).1.files
      = st.files ++
        [{ id := hexCode b₁ b₂ b₃, filename := some originalname,
           storedFilename := storedName, mimetype := some mimetype,
           originalMimetype := none, size := payload.length, originalSize := none,
           compressed := false, chunked := false }] := by
  by_cases h1 : (optimized && decide (10240 ≤ payload.length)) = true
  · by_cases h2 : (compressFn payload).length = 0
    · simp only [uploadSingle, if_pos h1, if_pos h2]
      exact ⟨trivial, upd_same .., rfl⟩
    · simp only [uploadSingle, if_pos h1, if_neg h2, if_pos hge]
      exact ⟨trivial, upd_same .., rfl⟩
  · simp only [uploadSingle, if_neg h1]
    exact ⟨trivial, upd_same .., rfl⟩

/-- Witness for the amended C5: a compressor that does not shrink its input
makes the single-shot path store the original and record compressed = false. -/
theorem single_shot_compression_fallback_witness :
    ([1, 2, 3] : Bytes).length ≤ ((fun bs : Bytes => bs) [1, 2, 3]).length ∧
    (uploadSingle emptyState "a.txt" "text/plain" [1, 2, 3] "sa" true
        (fun bs => bs) 0 0 0).2
      = { code := hexCode 0 0 0, filename := "a.txt", size := 3,
          originalSize := none, compressed := false } ∧
    (uploadSingle emptyState "a.txt" "text/plain" [1, 2, 3] "sa" true
        (fun bs => bs) 0 0 0).1.uploadsDir "sa" = some [1, 2, 3] :=
  ⟨by decide,
   (single_shot_compression_fallback emptyState "a.txt" "text/plain" "sa" [1, 2, 3]
     true (fun bs => bs) 0 0 0 (by decide)).1,
   (single_shot_compression_fallback emptyState "a.txt" "text/plain" "sa" [1, 2, 3]
     true (fun bs => bs) 0 0 0 (by decide)).2.1⟩

/-- C6 counterexample: calling init with the filename absent AND
totalChunks = "0" (which parses to 0 ≤ 0) does not fail with any
invalid-parameters error: it reports success and creates a session (with an
empty received set and totalChunks 0). -/
theorem init_accepts_invalid_params :
    (parseIntJs "0" = some 0 ∧ (0 : Int) ≤ 0) ∧
    (initUpload emptyState "u" ⟨none, some "0", some "5", none, none⟩ 0).2 = true ∧
    (initUpload emptyState "u" ⟨none, some "0", some "5", none, none⟩ 0).1.sessions "u"
      = some { filename := none, totalChunks := some 0, receivedChunks := 0,
               receivedChunksMap := [], fileSize := some 5, mimeType := none,
               uploadChunksDir := "u", createdAt := 0, chunkSize := 5242880 } := by
  exact ⟨by decide, rfl, by decide⟩

/-- C6 amended: init validates nothing: for every state and every parameter
combination — totalChunks ≤ 0 and a missing filename included — it reports
success and overwrites the uploadId slot with a session carrying an empty
received set, zero count and the parsed parameters, touching nothing else. -/
theorem init_creates_session_unconditionally
    (st : ServerState) (uploadId : String) (p : InitParams) (now : Nat) :
    (initUpload st uploadId p now).2 = true ∧
    (initUpload st uploadId p now).1.sessions uploadId = some
      { filename := p.filename, totalChunks := p.totalChunks.bind parseIntJs,
        receivedChunks := 0, receivedChunksMap := [],
        fileSize := p.fileSize.bind parseIntJs, mimeType := p.mimeType,
        uploadChunksDir := uploadId, createdAt := now,
        chunkSize := match p.chunkSize with
          | some n => if n = 0 then 5242880 else n
          | none => 5242880 } ∧
    (initUpload st uploadId p now).1.chunkFiles = st.chunkFiles ∧
    (initUpload st uploadId p now).1.files = st.files ∧
    (initUpload st uploadId p now).1.groups = st.groups ∧
    (initUpload st uploadId p now).1.uploadsDir = st.uploadsDir ∧
    (∀ uid2 : String, uid2 ≠ uploadId →
      (initUpload st uploadId p now).1.sessions uid2 = st.sessions uid2) :=
  ⟨rfl, upd_same .., rfl, rfl, rfl, rfl, fun _ h => upd_ne _ _ _ _ h⟩

/-- Witness for the amended C6 at invalid parameters (negative totalChunks,
missing filename): success, fresh empty session, other slots untouched. -/
theorem init_creates_session_unconditionally_witness :
    (initUpload emptyState "v" ⟨none, some "-3", none, none, some 0⟩ 7).2 = true ∧
    (initUpload emptyState "v" ⟨none, some "-3", none, none, some 0⟩ 7).1.sessions "v"
      = some { filename := none, totalChunks := some (-3), receivedChunks := 0,
               receivedChunksMap := [], fileSize := none, mimeType := none,
               uploadChunksDir := "v", createdAt := 7, chunkSize := 5242880 } ∧
    (initUpload emptyState "v" ⟨none, some "-3", none, none, some 0⟩ 7).1.sessions "w"
      = none :=
  ⟨(init_creates_session_unconditionally emptyState "v" ⟨none, some "-3", none, none, some 0⟩ 7).1,
   (init_creates_session_unconditionally emptyState "v" ⟨none, some "-3", none, none, some 0⟩ 7).2.1,
   (init_creates_session_unconditionally emptyState "v" ⟨none, some "-3", none, none, some 0⟩ 7).2.2.2.2.2.2
     "w" (by decide)⟩

/-- C7: every successful chunked completion stores an artifact and reports,
in the response and in the appended file record, exactly the measured byte
length of that stored artifact — the declared total size from init enters
neither (the declared size can be arbitrary: compare the witness, declared
999, reported 1). -/
theorem completion_reports_actual_artifact_size
    (st : ServerState) (uploadId : String) (compressReq : Bool)
    (compressFn : Bytes → Bytes) (b₁ b₂ b₃ : Fin 256) (now : Nat)
    (st2 : ServerState) (resp : CompleteOk)
    (h : completeUpload st uploadId compressReq compressFn b₁ b₂ b₃ now
      = (st2, .ok resp)) :
    ∃ (r : FileRecord) (out : Bytes),
      st2.files = st.files ++ [r] ∧
      st2.uploadsDir r.storedFilename = some out ∧
      resp.size = out.length ∧
      r.size = out.length := by
  unfold completeUpload at h
  split at h
  · simp at h
  · split at h
    · split at h
      · simp at h
      · split at h
        · simp at h
        · rw [Prod.mk.injEq] at h
          obtain ⟨hst, hresp⟩ := h
          rw [Except.ok.injEq] at hresp
          subst hst
          refine ⟨_, _, rfl, ?_, ?_, rfl⟩
          · exact upd_same ..
          · rw [← hresp]
    · simp at h

/-- Witness for C7: the declared size is 999 but the single stored chunk has
one byte; completion succeeds, stores a one-byte artifact and reports size 1
everywhere. -/
theorem completion_reports_actual_artifact_size_witness :
    (completeUpload stOkFix "u" false (fun b => b) 0 0 0 0
      = ((completeUpload stOkFix "u" false (fun b => b) 0 0 0 0).1,
         .ok { code := hexCode 0 0 0, filename := some "f", size := 1,
               originalSize := none, compressed := false })) ∧
    sessionOkFix.fileSize = some 999 ∧
    (∃ (r : FileRecord) (out : Bytes),
      (completeUpload stOkFix "u" false (fun b => b) 0 0 0 0).1.files
        = stOkFix.files ++ [r] ∧
      (completeUpload stOkFix "u" false (fun b => b) 0 0 0 0).1.uploadsDir
        r.storedFilename = some out ∧
      (1 : Nat) = out.length ∧
      r.size = out.length) :=
  ⟨rfl, rfl,
   completion_reports_actual_artifact_size stOkFix "u" false (fun b => b) 0 0 0 0
     (completeUpload stOkFix "u" false (fun b => b) 0 0 0 0).1
     { code := hexCode 0 0 0, filename := some "f", size := 1,
       originalSize := none, compressed := false } rfl⟩

/-- C8: the received set is keyed by the parsed integer index while the chunk
file is stored under the raw index string: after submitting index strings "0"
and "01" (parsed 0 and 1) to a two-chunk session, the count reaches
totalChunks and the completeness check passes, the disk holds files named
"0" and "01" but none named "1", and therefore every subsequent complete
call — for any compression flag, compressor, random bytes and clock — fails
with the missing-chunk error at index 1, leaving the state unchanged (so it
keeps failing forever). -/
theorem raw_string_chunk_keys_break_completion :
    stC8Fix.sessions "u" = some sessionC8Fix ∧
    sessionComplete sessionC8Fix ∧
    stC8Fix.chunkFiles "u" "0" = some [10, 11] ∧
    stC8Fix.chunkFiles "u" "01" = some [12, 13] ∧
    stC8Fix.chunkFiles "u" "1" = none ∧
    natToDec 1 = "1" ∧
    (∀ (c : Bool) (cf : Bytes → Bytes) (b₁ b₂ b₃ : Fin 256) (now : Nat),
      completeUpload stC8Fix "u" c cf b₁ b₂ b₃ now
        = (stC8Fix, .error (.missingChunk 1))) := by
  refine ⟨by decide, by decide, by decide, by decide, by decide, by decide, ?_⟩
  intro c cf b₁ b₂ b₃ now
  rfl

theorem toHexDigit_mem (d : Nat) (h : d < 16) :
    toHexDigit d ∈ ("0123456789abcdef" : String).data := by
  interval_cases d <;> decide

/-- C9: share codes for files and groups are always exactly 6 lowercase
hexadecimal characters; committing a record is an unconditional append that
never checks the new code against existing records; lookup returns the
earliest-committed record bearing the code, so appending a record under a
colliding code leaves every lookup of that code unchanged — the later record
is never reachable. -/
theorem share_codes_hex_and_earliest_lookup :
    (∀ b₁ b₂ b₃ : Fin 256, (hexCode b₁ b₂ b₃).length = 6 ∧
      ∀ c ∈ (hexCode b₁ b₂ b₃).data, c ∈ ("0123456789abcdef" : String).data) ∧
    (∀ (files : List FileRecord) (code : String) (r : FileRecord),
      lookupFile files code = some r →
        r.id = code ∧ ∃ pre post, files = pre ++ r :: post ∧ ∀ x ∈ pre, x.id ≠ code) ∧
    (∀ (files : List FileRecord) (rNew : FileRecord) (code : String),
      (∃ old ∈ files, old.id = code) →
      lookupFile (commitFile files rNew) code = lookupFile files code) ∧
    (∀ (st : ServerState) (a m sn : String) (payload : Bytes) (optimized : Bool)
      (compressFn : Bytes → Bytes) (b₁ b₂ b₃ : Fin 256),
      ∃ r : FileRecord,
        (uploadSingle st a m payload sn optimized compressFn b₁ b₂ b₃).1.files
          = commitFile st.files r ∧ r.id = hexCode b₁ b₂ b₃) ∧
    (∀ (st : ServerState) (fileIds : List String) (groupName : Option String)
      (b₁ b₂ b₃ : Fin 256) (g : GroupRecord),
      (createGroup st fileIds groupName b₁ b₂ b₃).2 = some g →
        g.id = hexCode b₁ b₂ b₃) := by
  refine ⟨?_, ?_, ?_, ?_, ?_⟩
  · intro b₁ b₂ b₃
    refine ⟨rfl, ?_⟩
    intro c hc
    have hmem : c = toHexDigit (b₁.val / 16 % 16) ∨ c = toHexDigit (b₁.val % 16) ∨
        c = toHexDigit (b₂.val / 16 % 16) ∨ c = toHexDigit (b₂.val % 16) ∨
        c = toHexDigit (b₃.val / 16 % 16) ∨ c = toHexDigit (b₃.val % 16) := by
      simpa [hexCode, byteToHex] using hc
    have h16 : ∀ x : Nat, x % 16 < 16 := fun x => Nat.mod_lt _ (by norm_num)
    rcases hmem with rfl | rfl | rfl | rfl | rfl | rfl <;>
      exact toHexDigit_mem _ (h16 _)
  · intro files code r h
    rw [lookupFile] at h
    obtain ⟨hp, pre, post, heq, hall⟩ := List.find?_eq_some.mp h
    refine ⟨by simpa using hp, pre, post, heq, ?_⟩
    intro x hx
    have := hall x hx
    simpa using this
  · intro files rNew code hold
    obtain ⟨old, hmem, hid⟩ := hold
    have hsome : (List.find? (fun f => f.id == code) files).isSome := by
      rw [List.find?_isSome]
      exact ⟨old, hmem, by simp [hid]⟩
    obtain ⟨o, ho⟩ := Option.isSome_iff_exists.mp hsome
    rw [lookupFile, lookupFile, commitFile, List.find?_append, ho]
    rfl
  · intro st a m sn payload optimized compressFn b₁ b₂ b₃
    by_cases h1 : (optimized && decide (10240 ≤ payload.length)) = true
    · by_cases h2 : (compressFn payload).length = 0
      · refine ⟨{ id := hexCode b₁ b₂ b₃, filename := some a, storedFilename := sn,
                  mimetype := some m, originalMimetype := none, size := payload.length,
                  originalSize := none, compressed := false, chunked := false }, ?_, rfl⟩
        simp only [uploadSingle, if_pos h1, if_pos h2]
      · by_cases h3 : payload.length ≤ (compressFn payload).length
        · refine ⟨{ id := hexCode b₁ b₂ b₃, filename := some a, storedFilename := sn,
                    mimetype := some m, originalMimetype := none, size := payload.length,
                    originalSize := none, compressed := false, chunked := false }, ?_, rfl⟩
          simp only [uploadSingle, if_pos h1, if_neg h2, if_pos h3]
        · refine ⟨{ id := hexCode b₁ b₂ b₃, filename := some a, storedFilename := sn,
                    mimetype := some "application/gzip", originalMimetype := some m,
                    size := (compressFn payload).length,
                    originalSize := some (payload.length : Int), compressed := true,
                    chunked := false }, ?_, rfl⟩
          simp only [uploadSingle, if_pos h1, if_neg h2, if_neg h3]
    · refine ⟨{ id := hexCode b₁ b₂ b₃, filename := some a, storedFilename := sn,
                mimetype := some m, originalMimetype := none, size := payload.length,
                originalSize := none, compressed := false, chunked := false }, ?_, rfl⟩
      simp only [uploadSingle, if_neg h1]
  · intro st fileIds groupName b₁ b₂ b₃ g h
    unfold createGroup at h
    split at h
    · simp at h
    · split at h
      · simp only at h
        rw [Option.some.injEq] at h
        rw [← h]
      · simp at h

/-- Witness for C9: a record committed later under the already-taken code
"000000" is invisible to lookup, which still answers with the earlier
record; the code has 6 characters. -/
theorem share_codes_hex_and_earliest_lookup_witness :
    (∃ old ∈ [recAFix], old.id = hexCode 0 0 0) ∧
    lookupFile (commitFile [recAFix] recBFix) (hexCode 0 0 0)
      = lookupFile [recAFix] (hexCode 0 0 0) ∧
    lookupFile [recAFix] (hexCode 0 0 0) = some recAFix ∧
    (hexCode 0 0 0).length = 6 :=
  ⟨⟨recAFix, by decide, rfl⟩,
   share_codes_hex_and_earliest_lookup.2.2.1 [recAFix] recBFix (hexCode 0 0 0)
     ⟨recAFix, by decide, rfl⟩,
   by decide,
   (share_codes_hex_and_earliest_lookup.1 0 0 0).1⟩

/-- C10: init on an uploadId that already holds an active session silently
replaces the session state entirely — the received count and received-index
set reset to empty and the new filename/totalChunks/fileSize are adopted —
while the chunk files previously stored in that session's directory (and
every other directory) remain on disk unchanged. -/
theorem init_replaces_existing_session_keeps_chunk_files
    (st : ServerState) (uploadId : String) (sOld : UploadSession)
    (p : InitParams) (now : Nat)
    (_hs : st.sessions uploadId = some sOld) :
    (initUpload st uploadId p now).1.sessions uploadId = some
      { filename := p.filename, totalChunks := p.totalChunks.bind parseIntJs,
        receivedChunks := 0, receivedChunksMap := [],
        fileSize := p.fileSize.bind parseIntJs, mimeType := p.mimeType,
        uploadChunksDir := uploadId, createdAt := now,
        chunkSize := match p.chunkSize with
          | some n => if n = 0 then 5242880 else n
          | none => 5242880 } ∧
    (initUpload st uploadId p now).1.chunkFiles = st.chunkFiles :=
  ⟨upd_same .., rfl⟩

/-- Witness for C10: reinitializing the session of stOkFix resets its count
from 1 to 0 and adopts the new parameters, while the chunk file named 0 is
still on disk. -/
theorem init_replaces_existing_session_keeps_chunk_files_witness :
    stOkFix.sessions "u" = some sessionOkFix ∧
    (initUpload stOkFix "u" ⟨some "g", some "3", some "9", none, none⟩ 5).1.sessions "u"
      = some { filename := some "g", totalChunks := some 3, receivedChunks := 0,
               receivedChunksMap := [], fileSize := some 9, mimeType := none,
               uploadChunksDir := "u", createdAt := 5, chunkSize := 5242880 } ∧
    (initUpload stOkFix "u" ⟨some "g", some "3", some "9", none, none⟩ 5).1.chunkFiles
      = stOkFix.chunkFiles ∧
    stOkFix.chunkFiles "u" "0" = some [9] :=
  ⟨rfl,
   (init_replaces_existing_session_keeps_chunk_files stOkFix "u" sessionOkFix
     ⟨some "g", some "3", some "9", none, none⟩ 5 rfl).1,
   (init_replaces_existing_session_keeps_chunk_files stOkFix "u" sessionOkFix
     ⟨some "g", some "3", some "9", none, none⟩ 5 rfl).2,
   rfl⟩

end FileShare
